import Mathlib

/-!
Verification development for the QEMU packet framing layer of RebbleOS
(src/rcore/qemu.c).  The receive buffer is modelled as a backing store
(a total function from index to byte) together with a used-length, so
that reads past the used-length observe stale backing-store bytes
exactly as the C code does.  Constants and collaborator operations that
live in headers outside src/ (qemu.h, protocol.c) are modelled from the
spec and marked as such in their doc comments.
-/

/-- Modelled from the spec: the fixed 16-bit header signature constant
(QEMU_HEADER_SIGNATURE from qemu.h, which is not under src/). -/
def QEMU_HEADER_SIGNATURE : Nat := 0xFEED

/-- Modelled from the spec: the fixed 16-bit footer signature constant
(QEMU_FOOTER_SIGNATURE from qemu.h, which is not under src/). -/
def QEMU_FOOTER_SIGNATURE : Nat := 0xBEEF

/-- Modelled from the spec: the maximum allowed declared payload length
(QEMU_MAX_DATA_LEN from qemu.h, which is not under src/). -/
def QEMU_MAX_DATA_LEN : Nat := 2048

/-- Modelled from the spec: the fixed protocol tag used by the transmit
path (QemuProtocol_SPP, declared outside src/). -/
def QemuProtocol_SPP : Nat := 1

/-- Modelled from the spec: the capacity of the shared receive buffer
(the buffer allocator lives in protocol.c, which is not under src/);
append fails when the capacity would be exceeded. -/
def RX_BUFFER_SIZE : Nat := 2048

/-- Size in bytes of QemuCommChannelHeader: three 16-bit fields. -/
def headerSize : Nat := 6

/-- Size in bytes of QemuCommChannelFooter: one 16-bit field. -/
def footerSize : Nat := 2

/-- The four decode outcomes returned by the packet handler
(PACKET_PROCESSED, PACKET_MORE_DATA_REQD, PACKET_INVALID,
PACKET_BUFFER_HAS_DATA). -/
inductive DecodeOutcome : Type where
  | processed : DecodeOutcome
  | moreDataReqd : DecodeOutcome
  | invalid : DecodeOutcome
  | bufferHasData : DecodeOutcome
deriving DecidableEq, Repr

/-- The shared receive buffer: a backing store of bytes (total function,
so indices past the used-length read stale data, as in the C code) and
the used-length accounting. -/
structure RxBuf : Type where
  store : Nat → Nat
  used : Nat

/-- The empty receive buffer: zero-initialised static storage. -/
def emptyRxBuf : RxBuf := ⟨fun _ => 0, 0⟩

/-- Read one byte of the backing store (protocol_get_rx_buffer access). -/
def rdByte (b : RxBuf) (i : Nat) : Nat := b.store i

/-- Read a big-endian 16-bit field at byte offset i (ntohs of a field). -/
def rdU16 (b : RxBuf) (i : Nat) : Nat := rdByte b i * 256 + rdByte b (i + 1)

/-- protocol_get_rx_buf_used. -/
def protocol_get_rx_buf_used (b : RxBuf) : Nat := b.used

/-- Modelled from the spec: protocol_rx_buffer_reset discards all
accumulated bytes (used-length back to zero; the backing store keeps its
stale contents). -/
def protocol_rx_buffer_reset (b : RxBuf) : RxBuf := ⟨b.store, 0⟩

/-- Modelled from the spec: protocol_rx_buffer_append writes the chunk
at offset used and advances used-length, failing (none) when the
capacity would be exceeded. -/
def protocol_rx_buffer_append (b : RxBuf) (chunk : List Nat) : Option RxBuf :=
  if RX_BUFFER_SIZE < b.used + chunk.length then none
  else some ⟨fun i => if i < b.used then b.store i
                      else if i < b.used + chunk.length then chunk.getD (i - b.used) 0
                      else b.store i,
             b.used + chunk.length⟩

/-- The parsed QemuCommChannelHeader. -/
structure QemuCommChannelHeader : Type where
  signature : Nat
  protocol : Nat
  len : Nat

/-- The header read of _qemu_read_header: three ntohs reads from the
front of the buffer, with no check that used-length covers them. -/
def _qemu_read_header (b : RxBuf) : QemuCommChannelHeader :=
  ⟨rdU16 b 0, rdU16 b 2, rdU16 b 4⟩

/-- Observable result of one _qemu_handle_packet call: the outcome code,
the buffer afterwards, the dispatched (protocol, payload-bytes) events,
whether the assert(used == header.len) condition held, and whether the
code performed its handler call with a NULL handler (unknown protocol). -/
structure DecRes : Type where
  outcome : DecodeOutcome
  buf : RxBuf
  evs : List (Nat × List Nat)
  assertOk : Bool
  nullCall : Bool

/-- Bytes i, i+1, ..., i+n-1 of the buffer (the data handed to
packet_create_with_data). -/
def bufBytes (b : RxBuf) (i n : Nat) : List Nat :=
  (List.range n).map (fun k => b.store (i + k))

/-- Shallow embedding of _qemu_handle_packet (src/rcore/qemu.c lines
182-242).  The dispatch router is the parameter reg: reg p is true when
protocol_find_endpoint_handler(p, qemu_endpoints) returns a handler
(the endpoint table is outside src/).  Handlers are modelled as pure
(the spec puts buffer-mutating handlers out of contract), so a dispatch
is recorded as an event.  The memmove moves header.len bytes from
offset 6 to offset 0; the pointer adjust shrinks used by 8. -/
def _qemu_handle_packet (reg : Nat → Bool) (b : RxBuf) : DecRes :=
  let header := _qemu_read_header b
  if header.signature ≠ QEMU_HEADER_SIGNATURE then
    ⟨DecodeOutcome.invalid, b, [], true, false⟩
  else if QEMU_MAX_DATA_LEN < header.len then
    ⟨DecodeOutcome.invalid, b, [], true, false⟩
  else if b.used < header.len + headerSize + footerSize then
    ⟨DecodeOutcome.moreDataReqd, b, [], true, false⟩
  else
    let hasHandler := reg header.protocol
    if rdU16 b (header.len + headerSize) ≠ QEMU_FOOTER_SIGNATURE then
      ⟨DecodeOutcome.invalid, b, [], true, false⟩
    else
      let b2 : RxBuf :=
        ⟨fun i => if i < header.len then b.store (i + headerSize) else b.store i,
         b.used - (footerSize + headerSize)⟩
      let aok := decide (b2.used = header.len)
      let evs := if hasHandler then [(header.protocol, bufBytes b2 0 header.len)] else []
      if header.len < b2.used then
        ⟨DecodeOutcome.bufferHasData, b2, evs, aok, !hasHandler⟩
      else
        ⟨DecodeOutcome.processed, b2, evs, aok, !hasHandler⟩

/-- Observable result of worker-loop iterations (_qemu_thread inner
loop): buffer afterwards, whether the loop is done, dispatched events,
conjunction of assert conditions, number of NULL-handler calls, and the
number of _qemu_handle_packet invocations performed. -/
structure IterRes : Type where
  buf : RxBuf
  done : Bool
  evs : List (Nat × List Nat)
  assertOk : Bool
  nullCalls : Nat
  decodes : Nat

/-- One iteration of the inner while-loop of _qemu_thread
(src/rcore/qemu.c lines 149-168): read (the incoming chunk), append it
(reset and set done on failure), then unconditionally invoke
_qemu_handle_packet, then set done / reset according to the outcome. -/
def _qemu_iter (reg : Nat → Bool) (b : RxBuf) (chunk : List Nat) : IterRes :=
  let ap : RxBuf × Bool :=
    if chunk.length ≠ 0 then
      match protocol_rx_buffer_append b chunk with
      | some nb => (nb, false)
      | none => (protocol_rx_buffer_reset b, true)
    else (b, false)
  let r := _qemu_handle_packet reg ap.1
  let fin : RxBuf × Bool :=
    match r.outcome with
    | DecodeOutcome.processed => (r.buf, true)
    | DecodeOutcome.moreDataReqd => (r.buf, true)
    | DecodeOutcome.invalid => (protocol_rx_buffer_reset r.buf, true)
    | DecodeOutcome.bufferHasData => (r.buf, false)
  ⟨fin.1, ap.2 || fin.2, r.evs, r.assertOk, (if r.nullCall then 1 else 0), 1⟩

/-- The inner while-loop of _qemu_thread, run to completion on one read
event: the first iteration reads the incoming chunk, subsequent
iterations (taken only on PACKET_BUFFER_HAS_DATA) read nothing.  Fueled
recursion; the fuel chosen by processChunk always suffices because each
successful decode shrinks used-length by at least 8. -/
def _qemu_loop (reg : Nat → Bool) : Nat → RxBuf → List Nat → IterRes
  | 0, b, _ => ⟨b, true, [], true, 0, 0⟩
  | fuel + 1, b, chunk =>
    let it := _qemu_iter reg b chunk
    if it.done then it
    else
      let rest := _qemu_loop reg fuel it.buf []
      ⟨rest.buf, rest.done, it.evs ++ rest.evs, it.assertOk && rest.assertOk,
       it.nullCalls + rest.nullCalls, it.decodes + rest.decodes⟩

/-- Process one read event (one wake of the worker) delivering the given
chunk from the transport. -/
def processChunk (reg : Nat → Bool) (b : RxBuf) (chunk : List Nat) : IterRes :=
  _qemu_loop reg (b.used + chunk.length + 1) b chunk

/-- Cumulative result of feeding a sequence of read events. -/
structure StreamRes : Type where
  buf : RxBuf
  evs : List (Nat × List Nat)
  assertOk : Bool

/-- Feed a sequence of chunks through the worker, one read event each. -/
def processStream (reg : Nat → Bool) (b : RxBuf) : List (List Nat) → StreamRes
  | [] => ⟨b, [], true⟩
  | c :: cs =>
    let r := processChunk reg b c
    let rest := processStream reg r.buf cs
    ⟨rest.buf, r.evs ++ rest.evs, r.assertOk && rest.assertOk⟩

/-- Byte sequence emitted by qemu_send_data (src/rcore/qemu.c lines
76-106): header (signature, fixed SPP protocol tag, length = payload
length + 4, each htons big-endian), the 16-bit payload length, the
16-bit endpoint, the payload, the footer signature.  The uint16_t
parameters and the uint16_t header.len field reduce modulo 2^16. -/
def qemu_send_data (endpoint : Nat) (data : List Nat) : List Nat :=
  QEMU_HEADER_SIGNATURE / 256 % 256 :: QEMU_HEADER_SIGNATURE % 256 ::
  QemuProtocol_SPP / 256 % 256 :: QemuProtocol_SPP % 256 ::
  (data.length % 65536 + 4) % 65536 / 256 % 256 :: (data.length % 65536 + 4) % 65536 % 256 ::
  data.length % 65536 / 256 % 256 :: data.length % 65536 % 256 ::
  endpoint % 65536 / 256 % 256 :: endpoint % 65536 % 256 ::
  (data ++ [QEMU_FOOTER_SIGNATURE / 256 % 256, QEMU_FOOTER_SIGNATURE % 256])

/-- Wire bytes of a single received frame carrying the given protocol
identifier and payload: header (signature, protocol, payload length,
big-endian), payload, footer signature. -/
def frameBytes (proto : Nat) (p : List Nat) : List Nat :=
  QEMU_HEADER_SIGNATURE / 256 % 256 :: QEMU_HEADER_SIGNATURE % 256 ::
  proto / 256 % 256 :: proto % 256 ::
  p.length / 256 % 256 :: p.length % 256 ::
  (p ++ [QEMU_FOOTER_SIGNATURE / 256 % 256, QEMU_FOOTER_SIGNATURE % 256])

/-- Modelled from the spec: the endpoint-tagged content carried inside
an SPP frame built by the send path - a duplicated 16-bit payload
length, the 16-bit target endpoint, then the payload. -/
def sppWrap (endpoint : Nat) (p : List Nat) : List Nat :=
  p.length % 65536 / 256 % 256 :: p.length % 65536 % 256 ::
  endpoint % 65536 / 256 % 256 :: endpoint % 65536 % 256 :: p

/-- Modelled from the spec: the SPP endpoint handler (outside src/)
reads the 16-bit endpoint at offset 2 of the delivered data and treats
the rest, from offset 4, as the application payload. -/
def sppUnwrap (d : List Nat) : Nat × List Nat :=
  (d.getD 2 0 * 256 + d.getD 3 0, d.drop 4)

/-- A buffer whose backing store holds exactly the given byte list
starting at index 0 (zeroes beyond), with used-length covering it all. -/
def bufOfList (l : List Nat) : RxBuf := ⟨fun i => l.getD i 0, l.length⟩

/-- Dispatch router in which every protocol identifier has a handler. -/
def regAll : Nat → Bool := fun _ => true

/-- Dispatch router in which only the SPP protocol has a handler. -/
def regSppOnly : Nat → Bool := fun p => p == QemuProtocol_SPP

/-- The buffer state after accumulating exactly the first u bytes of the
byte sequence F into an initially empty receive buffer: used-length is u
and the backing store holds those bytes, zeroes elsewhere. -/
def holdsPartial (F : List Nat) (u : Nat) (b : RxBuf) : Prop :=
  b.used = u ∧ ∀ i : Nat, b.store i = if i < u then F.getD i 0 else 0

/-- Backing store with a valid signature and stale length bytes reading
0x0801 = 2049 (just over the maximum). -/
def staleStoreA : Nat → Nat :=
  fun i => if i = 0 then 254 else if i = 1 then 237 else
           if i = 4 then 8 else if i = 5 then 1 else 0

/-- Backing store agreeing with staleStoreA below index 5 but whose
byte 5 is 0, so the length reads 0x0800 = 2048 (at the maximum). -/
def staleStoreB : Nat → Nat :=
  fun i => if i = 0 then 254 else if i = 1 then 237 else
           if i = 4 then 8 else 0

/-- Backing store holding the first 5 bytes of the valid frame
frameBytes 1 (List.replicate 2048 0), with stale byte 255 at index 5. -/
def c6store : Nat → Nat :=
  fun i => if i = 0 then 254 else if i = 1 then 237 else
           if i = 3 then 1 else if i = 4 then 8 else
           if i = 5 then 255 else 0

/-- Backing store holding the first 5 bytes of the valid frame
frameBytes 1 [7, 7, 7], with stale byte 200 at index 5. -/
def c6witStore : Nat → Nat :=
  fun i => if i = 0 then 254 else if i = 1 then 237 else
           if i = 3 then 1 else if i = 5 then 200 else 0

/-- A receive buffer that is already full to capacity. -/
def fullRxBuf : RxBuf := ⟨fun _ => 0, RX_BUFFER_SIZE⟩

/-- Two complete valid frames, payloads [0xAA] and [0xBB], as delivered
by a single read event. -/
def twoFrameChunk : List Nat := frameBytes 1 [0xAA] ++ frameBytes 1 [0xBB]

theorem handle_inv_sig (reg : Nat → Bool) (b : RxBuf)
    (h1 : rdU16 b 0 ≠ QEMU_HEADER_SIGNATURE) :
    _qemu_handle_packet reg b = ⟨DecodeOutcome.invalid, b, [], true, false⟩ := by
  unfold _qemu_handle_packet _qemu_read_header
  simp [h1]

theorem handle_inv_len (reg : Nat → Bool) (b : RxBuf)
    (h1 : rdU16 b 0 = QEMU_HEADER_SIGNATURE)
    (h2 : QEMU_MAX_DATA_LEN < rdU16 b 4) :
    _qemu_handle_packet reg b = ⟨DecodeOutcome.invalid, b, [], true, false⟩ := by
  unfold _qemu_handle_packet _qemu_read_header
  simp [h1, h2]

theorem handle_more (reg : Nat → Bool) (b : RxBuf)
    (h1 : rdU16 b 0 = QEMU_HEADER_SIGNATURE)
    (h2 : rdU16 b 4 ≤ QEMU_MAX_DATA_LEN)
    (h3 : b.used < rdU16 b 4 + headerSize + footerSize) :
    _qemu_handle_packet reg b = ⟨DecodeOutcome.moreDataReqd, b, [], true, false⟩ := by
  unfold _qemu_handle_packet _qemu_read_header
  simp [h1, h3, Nat.not_lt.mpr h2]

theorem handle_success (reg : Nat → Bool) (b : RxBuf)
    (h1 : rdU16 b 0 = QEMU_HEADER_SIGNATURE)
    (h2 : rdU16 b 4 ≤ QEMU_MAX_DATA_LEN)
    (h3 : rdU16 b 4 + headerSize + footerSize ≤ b.used)
    (h4 : rdU16 b (rdU16 b 4 + headerSize) = QEMU_FOOTER_SIGNATURE) :
    _qemu_handle_packet reg b =
      ⟨(if rdU16 b 4 < b.used - (footerSize + headerSize) then DecodeOutcome.bufferHasData
        else DecodeOutcome.processed),
       ⟨fun i => if i < rdU16 b 4 then b.store (i + headerSize) else b.store i,
        b.used - (footerSize + headerSize)⟩,
       (if reg (rdU16 b 2) then
          [(rdU16 b 2,
            bufBytes ⟨fun i => if i < rdU16 b 4 then b.store (i + headerSize) else b.store i,
                      b.used - (footerSize + headerSize)⟩ 0 (rdU16 b 4))]
        else []),
       decide (b.used - (footerSize + headerSize) = rdU16 b 4),
       !reg (rdU16 b 2)⟩ := by
  unfold _qemu_handle_packet _qemu_read_header
  simp [h1, h4, Nat.not_lt.mpr h2, Nat.not_lt.mpr h3]
  split <;> rfl

theorem handle_used_zero (reg : Nat → Bool) (b : RxBuf) (h : b.used = 0) :
    _qemu_handle_packet reg b = ⟨DecodeOutcome.invalid, b, [], true, false⟩ ∨
    _qemu_handle_packet reg b = ⟨DecodeOutcome.moreDataReqd, b, [], true, false⟩ := by
  by_cases h1 : rdU16 b 0 = QEMU_HEADER_SIGNATURE
  · by_cases h2 : rdU16 b 4 ≤ QEMU_MAX_DATA_LEN
    · exact Or.inr (handle_more reg b h1 h2 (by unfold headerSize footerSize; omega))
    · exact Or.inl (handle_inv_len reg b h1 (by omega))
  · exact Or.inl (handle_inv_sig reg b h1)

theorem frame_length (proto : Nat) (p : List Nat) :
    (frameBytes proto p).length = p.length + 8 := by
  simp [frameBytes]

theorem frame_getD0 (proto : Nat) (p : List Nat) :
    (frameBytes proto p).getD 0 0 = 254 := rfl

theorem frame_getD1 (proto : Nat) (p : List Nat) :
    (frameBytes proto p).getD 1 0 = 237 := rfl

theorem frame_getD2 (proto : Nat) (p : List Nat) :
    (frameBytes proto p).getD 2 0 = proto / 256 % 256 := rfl

theorem frame_getD3 (proto : Nat) (p : List Nat) :
    (frameBytes proto p).getD 3 0 = proto % 256 := rfl

theorem frame_getD4 (proto : Nat) (p : List Nat) :
    (frameBytes proto p).getD 4 0 = p.length / 256 % 256 := rfl

theorem frame_getD5 (proto : Nat) (p : List Nat) :
    (frameBytes proto p).getD 5 0 = p.length % 256 := rfl

theorem frame_getD_payload (proto : Nat) (p : List Nat) (i : Nat) (h : i < p.length) :
    (frameBytes proto p).getD (i + 6) 0 = p.getD i 0 := by
  simp only [frameBytes, List.getD_cons_succ]
  rw [List.getD_append _ _ _ _ h]

theorem frame_getD_footer0 (proto : Nat) (p : List Nat) :
    (frameBytes proto p).getD (p.length + 6) 0 = 190 := by
  simp only [frameBytes, List.getD_cons_succ]
  rw [List.getD_append_right _ _ _ _ (Nat.le_refl _)]
  simp
  decide

theorem frame_getD_footer1 (proto : Nat) (p : List Nat) :
    (frameBytes proto p).getD (p.length + 7) 0 = 239 := by
  simp only [frameBytes, List.getD_cons_succ]
  rw [List.getD_append_right _ _ _ _ (by omega)]
  have : p.length + 1 - p.length = 1 := by omega
  rw [this]
  simp
  decide

theorem mapRange_getD (p : List Nat) :
    (List.range p.length).map (fun k => p.getD k 0) = p := by
  apply List.ext_getElem
  · simp
  · intro i h1 h2
    simp only [List.getElem_map, List.getElem_range]
    exact List.getD_eq_getElem p 0 (by simpa using h2)

theorem bufBytes_eq_of (b2 : RxBuf) (p : List Nat)
    (h : ∀ k, k < p.length → b2.store k = p.getD k 0) :
    bufBytes b2 0 p.length = p := by
  unfold bufBytes
  have hcg : ∀ k ∈ List.range p.length, b2.store (0 + k) = p.getD k 0 := by
    intro k hk
    rw [Nat.zero_add]
    exact h k (List.mem_range.mp hk)
  rw [List.map_congr_left hcg, mapRange_getD]

theorem rdU16_eq (b : RxBuf) (i x y : Nat) (hx : b.store i = x)
    (hy : b.store (i + 1) = y) : rdU16 b i = x * 256 + y := by
  simp [rdU16, rdByte, hx, hy]

theorem holdsPartial_store_lt {F : List Nat} {u : Nat} {b : RxBuf}
    (hb : holdsPartial F u b) {i : Nat} (h : i < u) :
    b.store i = F.getD i 0 := by
  rw [hb.2 i, if_pos h]

theorem holdsPartial_store_ge {F : List Nat} {u : Nat} {b : RxBuf}
    (hb : holdsPartial F u b) {i : Nat} (h : u ≤ i) :
    b.store i = 0 := by
  rw [hb.2 i, if_neg (by omega)]

theorem decode_partial_frame (reg : Nat → Bool) (proto : Nat) (p : List Nat)
    (u : Nat) (b : RxBuf)
    (hp : p.length ≤ QEMU_MAX_DATA_LEN)
    (hb : holdsPartial (frameBytes proto p) u b)
    (hu2 : 2 ≤ u) (hufull : u < (frameBytes proto p).length) :
    _qemu_handle_packet reg b = ⟨DecodeOutcome.moreDataReqd, b, [], true, false⟩ := by
  have hp2048 : p.length ≤ 2048 := hp
  have hF : (frameBytes proto p).length = p.length + 8 := frame_length proto p
  have hs0 : b.store 0 = 254 := by
    rw [holdsPartial_store_lt hb (by omega)]; exact frame_getD0 proto p
  have hs1 : b.store 1 = 237 := by
    rw [holdsPartial_store_lt hb (by omega)]; exact frame_getD1 proto p
  have hsig : rdU16 b 0 = QEMU_HEADER_SIGNATURE := by
    rw [rdU16_eq b 0 254 237 hs0 hs1]; decide
  have key : rdU16 b 4 ≤ QEMU_MAX_DATA_LEN ∧
      b.used < rdU16 b 4 + headerSize + footerSize := by
    have h45 : rdU16 b 4 = b.store 4 * 256 + b.store 5 :=
      rdU16_eq b 4 (b.store 4) (b.store 5) rfl rfl
    rcases Nat.lt_or_ge u 6 with h6 | h6
    · -- fewer than six bytes accumulated: byte 5, maybe byte 4, are stale zeroes
      rcases Nat.lt_or_ge u 5 with h5 | h5
      · have h4v : b.store 4 = 0 := holdsPartial_store_ge hb (by omega)
        have h5v : b.store 5 = 0 := holdsPartial_store_ge hb (by omega)
        constructor
        · rw [h45, h4v, h5v]; decide
        · rw [hb.1]; unfold headerSize footerSize; omega
      · have hu5 : u = 5 := by omega
        have h4v : b.store 4 = p.length / 256 % 256 := by
          rw [holdsPartial_store_lt hb (by omega)]; exact frame_getD4 proto p
        have h5v : b.store 5 = 0 := holdsPartial_store_ge hb (by omega)
        constructor
        · rw [h45, h4v, h5v]
          show p.length / 256 % 256 * 256 + 0 ≤ QEMU_MAX_DATA_LEN
          have : p.length / 256 % 256 * 256 ≤ p.length := by omega
          omega
        · rw [hb.1]; unfold headerSize footerSize; omega
    · -- full header present: the length field reads back exactly
      have h4v : b.store 4 = p.length / 256 % 256 := by
        rw [holdsPartial_store_lt hb (by omega)]; exact frame_getD4 proto p
      have h5v : b.store 5 = p.length % 256 := by
        rw [holdsPartial_store_lt hb (by omega)]; exact frame_getD5 proto p
      have hlen : rdU16 b 4 = p.length := by rw [h45, h4v, h5v]; omega
      constructor
      · rw [hlen]; exact hp
      · rw [hb.1, hlen]; unfold headerSize footerSize; omega
  exact handle_more reg b hsig key.1 key.2

theorem decode_full_frame (reg : Nat → Bool) (proto : Nat) (p : List Nat)
    (b : RxBuf)
    (hp : p.length ≤ QEMU_MAX_DATA_LEN)
    (hproto : proto < 65536)
    (hreg : reg proto = true)
    (hb : holdsPartial (frameBytes proto p) ((frameBytes proto p).length) b) :
    _qemu_handle_packet reg b =
      ⟨DecodeOutcome.processed,
       ⟨fun i => if i < p.length then b.store (i + headerSize) else b.store i, p.length⟩,
       [(proto, p)], true, false⟩ := by
  have hp2048 : p.length ≤ 2048 := hp
  have hF : (frameBytes proto p).length = p.length + 8 := frame_length proto p
  have hs0 : b.store 0 = 254 := by
    rw [holdsPartial_store_lt hb (by omega)]; exact frame_getD0 proto p
  have hs1 : b.store 1 = 237 := by
    rw [holdsPartial_store_lt hb (by omega)]; exact frame_getD1 proto p
  have hs2 : b.store 2 = proto / 256 % 256 := by
    rw [holdsPartial_store_lt hb (by omega)]; exact frame_getD2 proto p
  have hs3 : b.store 3 = proto % 256 := by
    rw [holdsPartial_store_lt hb (by omega)]; exact frame_getD3 proto p
  have hs4 : b.store 4 = p.length / 256 % 256 := by
    rw [holdsPartial_store_lt hb (by omega)]; exact frame_getD4 proto p
  have hs5 : b.store 5 = p.length % 256 := by
    rw [holdsPartial_store_lt hb (by omega)]; exact frame_getD5 proto p
  have hsig : rdU16 b 0 = QEMU_HEADER_SIGNATURE := by
    rw [rdU16_eq b 0 254 237 hs0 hs1]; decide
  have hlen : rdU16 b 4 = p.length := by
    rw [rdU16_eq b 4 _ _ hs4 hs5]; omega
  have hprd : rdU16 b 2 = proto := by
    rw [rdU16_eq b 2 _ _ hs2 hs3]; omega
  have hf0 : b.store (p.length + 6) = 190 := by
    rw [holdsPartial_store_lt hb (by omega)]; exact frame_getD_footer0 proto p
  have hf1 : b.store (p.length + 6 + 1) = 239 := by
    rw [holdsPartial_store_lt hb (by omega)]
    have : p.length + 6 + 1 = p.length + 7 := by omega
    rw [this]; exact frame_getD_footer1 proto p
  have hftr : rdU16 b (rdU16 b 4 + headerSize) = QEMU_FOOTER_SIGNATURE := by
    rw [hlen]
    show rdU16 b (p.length + headerSize) = QEMU_FOOTER_SIGNATURE
    unfold headerSize
    rw [rdU16_eq b (p.length + 6) 190 239 hf0 hf1]; decide
  have h3 : rdU16 b 4 + headerSize + footerSize ≤ b.used := by
    rw [hlen, hb.1, hF]; unfold headerSize footerSize; omega
  rw [handle_success reg b hsig (by rw [hlen]; exact hp) h3 hftr]
  have hused8 : b.used - (footerSize + headerSize) = p.length := by
    rw [hb.1, hF]; unfold headerSize footerSize; omega
  have hdata : bufBytes
      ⟨fun i => if i < rdU16 b 4 then b.store (i + headerSize) else b.store i,
       b.used - (footerSize + headerSize)⟩ 0 (rdU16 b 4) = p := by
    rw [hlen]
    apply bufBytes_eq_of
    intro k hk
    show (if k < p.length then b.store (k + headerSize) else b.store k) = p.getD k 0
    rw [if_pos hk]
    show b.store (k + headerSize) = p.getD k 0
    unfold headerSize
    rw [holdsPartial_store_lt hb (by omega)]
    exact frame_getD_payload proto p k hk
  simp only [DecRes.mk.injEq]
  refine ⟨?_, ?_, ?_, ?_, ?_⟩
  · rw [if_neg]; rw [hused8, hlen]; omega
  · rw [RxBuf.mk.injEq]
    constructor
    · funext i; rw [hlen]
    · exact hused8
  · rw [hprd, hreg, hdata]
    simp
  · rw [hused8, hlen]; simp
  · rw [hprd, hreg]; rfl

theorem iter_chunk_more (reg : Nat → Bool) (b b2 b3 : RxBuf) (c : List Nat)
    (evs : List (Nat × List Nat)) (aok : Bool)
    (hc : c.length ≠ 0)
    (happ : protocol_rx_buffer_append b c = some b2)
    (hh : _qemu_handle_packet reg b2 = ⟨DecodeOutcome.moreDataReqd, b3, evs, aok, false⟩) :
    _qemu_iter reg b c = ⟨b3, true, evs, aok, 0, 1⟩ := by
  unfold _qemu_iter
  simp [hc, happ, hh]

theorem iter_chunk_processed (reg : Nat → Bool) (b b2 b3 : RxBuf) (c : List Nat)
    (evs : List (Nat × List Nat)) (aok : Bool)
    (hc : c.length ≠ 0)
    (happ : protocol_rx_buffer_append b c = some b2)
    (hh : _qemu_handle_packet reg b2 = ⟨DecodeOutcome.processed, b3, evs, aok, false⟩) :
    _qemu_iter reg b c = ⟨b3, true, evs, aok, 0, 1⟩ := by
  unfold _qemu_iter
  simp [hc, happ, hh]

theorem processChunk_of_done (reg : Nat → Bool) (b : RxBuf) (c : List Nat)
    (h : (_qemu_iter reg b c).done = true) :
    processChunk reg b c = _qemu_iter reg b c := by
  unfold processChunk
  show _qemu_loop reg (b.used + c.length + 1) b c = _
  simp only [_qemu_loop]
  rw [if_pos h]

theorem append_holdsPartial (F : List Nat) (u : Nat) (b : RxBuf) (c : List Nat)
    (hb : holdsPartial F u b)
    (hcb : ∀ k, k < c.length → c.getD k 0 = F.getD (u + k) 0)
    (hcap : u + c.length ≤ RX_BUFFER_SIZE) :
    ∃ b2, protocol_rx_buffer_append b c = some b2 ∧
      holdsPartial F (u + c.length) b2 := by
  have hbu : b.used = u := hb.1
  unfold protocol_rx_buffer_append
  rw [hbu, if_neg (by omega)]
  refine ⟨_, rfl, rfl, ?_⟩
  intro i
  show (if i < u then b.store i else if i < u + c.length then c.getD (i - u) 0
        else b.store i) =
       if i < u + c.length then F.getD i 0 else 0
  by_cases h1 : i < u
  · rw [if_pos h1, if_pos (by omega)]
    exact holdsPartial_store_lt hb h1
  · rw [if_neg h1]
    by_cases h2 : i < u + c.length
    · rw [if_pos h2, if_pos h2]
      have hk := hcb (i - u) (by omega)
      rw [hk]
      congr 1
      omega
    · rw [if_neg h2, if_neg h2]
      exact holdsPartial_store_ge hb (by omega)

theorem feed_frame_chunks (reg : Nat → Bool) (proto : Nat) (p : List Nat)
    (hp : p.length ≤ QEMU_MAX_DATA_LEN) (hproto : proto < 65536)
    (hreg : reg proto = true)
    (hcap : (frameBytes proto p).length ≤ RX_BUFFER_SIZE) :
    ∀ (cs : List (List Nat)) (u : Nat) (b : RxBuf),
      holdsPartial (frameBytes proto p) u b →
      u < (frameBytes proto p).length →
      cs.flatten = (frameBytes proto p).drop u →
      (∀ c ∈ cs, c ≠ []) →
      2 ≤ u + (cs.headD []).length →
      (processStream reg b cs).evs = [(proto, p)] ∧
      (processStream reg b cs).assertOk = true := by
  intro cs
  induction cs with
  | nil =>
    intro u b hb hu hjoin hne hu2
    exfalso
    have : (frameBytes proto p).drop u = [] := hjoin.symm
    rw [List.drop_eq_nil_iff] at this
    omega
  | cons c cs ih =>
    intro u b hb hu hjoin hne hu2
    have hF : (frameBytes proto p).length = p.length + 8 := frame_length proto p
    have hcne : c ≠ [] := hne c (by simp)
    have hclen : c.length ≠ 0 := by simpa [Ne, List.length_eq_zero] using hcne
    have hjoin' : c ++ cs.flatten = (frameBytes proto p).drop u := by
      simpa using hjoin
    have hlen_eq : c.length + cs.flatten.length = (frameBytes proto p).length - u := by
      have hl := congrArg List.length hjoin'
      simpa using hl
    have hu2le : u + c.length ≤ (frameBytes proto p).length := by omega
    have hcbytes : ∀ k, k < c.length → c.getD k 0 = (frameBytes proto p).getD (u + k) 0 := by
      intro k hk
      have h1 : (c ++ cs.flatten).getD k 0 = c.getD k 0 := List.getD_append _ _ _ _ hk
      rw [← h1, hjoin']
      have hk2 : k < ((frameBytes proto p).drop u).length := by
        rw [List.length_drop]; omega
      rw [List.getD_eq_getElem _ _ hk2, List.getElem_drop,
          List.getD_eq_getElem _ _ (by rw [hF] at hu2le ⊢; omega)]
    obtain ⟨b2, happ, hb2⟩ :=
      append_holdsPartial (frameBytes proto p) u b c hb hcbytes (by omega)
    have hcs_first : (List.headD (c :: cs) []).length = c.length := by simp
    have hu2c : 2 ≤ u + c.length := by rw [hcs_first] at hu2; exact hu2
    rcases Nat.lt_or_ge (u + c.length) (frameBytes proto p).length with hlt | hge
    · -- intermediate chunk: decoder reports NeedMoreData, worker waits for more
      have hdec := decode_partial_frame reg proto p (u + c.length) b2 hp hb2 hu2c hlt
      have hiter := iter_chunk_more reg b b2 b2 c [] true hclen happ hdec
      have hdone : (_qemu_iter reg b c).done = true := by rw [hiter]
      have hchunk : processChunk reg b c = ⟨b2, true, [], true, 0, 1⟩ := by
        rw [processChunk_of_done reg b c hdone, hiter]
      have hjoin2 : cs.flatten = (frameBytes proto p).drop (u + c.length) := by
        have hdl : (c ++ cs.flatten).drop c.length = cs.flatten := List.drop_left c cs.flatten
        rw [hjoin'] at hdl
        rw [← hdl, List.drop_drop]
      have hne2 : ∀ c2 ∈ cs, c2 ≠ [] := fun c2 hm => hne c2 (by simp [hm])
      have hrest := ih (u + c.length) b2 hb2 hlt hjoin2 hne2 (by omega)
      constructor
      · show (processStream reg b (c :: cs)).evs = [(proto, p)]
        simp only [processStream]
        rw [hchunk]
        simpa using hrest.1
      · show (processStream reg b (c :: cs)).assertOk = true
        simp only [processStream]
        rw [hchunk]
        simpa using hrest.2
    · -- final chunk: the frame is complete and is decoded and dispatched
      have hfull : u + c.length = (frameBytes proto p).length := by omega
      rw [hfull] at hb2
      have hdec := decode_full_frame reg proto p b2 hp hproto hreg hb2
      have hiter := iter_chunk_processed reg b b2 _ c [(proto, p)] true hclen happ hdec
      have hdone : (_qemu_iter reg b c).done = true := by rw [hiter]
      have hchunk : processChunk reg b c =
          ⟨⟨fun i => if i < p.length then b2.store (i + headerSize) else b2.store i,
            p.length⟩, true, [(proto, p)], true, 0, 1⟩ := by
        rw [processChunk_of_done reg b c hdone, hiter]
      have hcs_nil : cs = [] := by
        cases cs with
        | nil => rfl
        | cons d ds =>
          exfalso
          have hj : (d :: ds).flatten = (frameBytes proto p).drop (u + c.length) := by
            have hdl : (c ++ (d :: ds).flatten).drop c.length = (d :: ds).flatten :=
              List.drop_left c _
            rw [hjoin'] at hdl
            rw [← hdl, List.drop_drop]
          rw [hfull, List.drop_length] at hj
          have : d ++ ds.flatten = [] := by simpa using hj
          have hd : d = [] := (List.append_eq_nil.mp this).1
          exact hne d (by simp) hd
      subst hcs_nil
      constructor
      · show (processStream reg b [c]).evs = [(proto, p)]
        simp only [processStream]
        rw [hchunk]
        simp [processStream]
      · show (processStream reg b [c]).assertOk = true
        simp only [processStream]
        rw [hchunk]
        simp [processStream]

theorem feed_single_frame (reg : Nat → Bool) (proto : Nat) (p : List Nat)
    (cs : List (List Nat))
    (hp : p.length ≤ QEMU_MAX_DATA_LEN) (hproto : proto < 65536)
    (hreg : reg proto = true)
    (hcap : (frameBytes proto p).length ≤ RX_BUFFER_SIZE)
    (hjoin : cs.flatten = frameBytes proto p)
    (hne : ∀ c ∈ cs, c ≠ [])
    (hfirst : 2 ≤ (cs.headD []).length) :
    (processStream reg emptyRxBuf cs).evs = [(proto, p)] ∧
    (processStream reg emptyRxBuf cs).assertOk = true := by
  apply feed_frame_chunks reg proto p hp hproto hreg hcap cs 0 emptyRxBuf
  · exact ⟨rfl, fun i => by simp [emptyRxBuf]⟩
  · rw [frame_length]; omega
  · simpa using hjoin
  · exact hne
  · simpa using hfirst

theorem send_eq_frame (endpoint : Nat) (p : List Nat) (hp : p.length + 4 < 65536) :
    qemu_send_data endpoint p = frameBytes QemuProtocol_SPP (sppWrap endpoint p) := by
  have h1 : p.length % 65536 = p.length := Nat.mod_eq_of_lt (by omega)
  have h2 : (p.length + 4) % 65536 = p.length + 4 := Nat.mod_eq_of_lt hp
  simp [qemu_send_data, frameBytes, sppWrap, h1, h2]

theorem sppUnwrap_wrap (endpoint : Nat) (p : List Nat) (he : endpoint < 65536) :
    sppUnwrap (sppWrap endpoint p) = (endpoint, p) := by
  have h1 : endpoint % 65536 = endpoint := Nat.mod_eq_of_lt he
  unfold sppUnwrap sppWrap
  rw [h1]
  simp only [List.getD_cons_succ, List.getD_cons_zero, List.drop_succ_cons,
    List.drop_zero, Prod.mk.injEq]
  constructor
  · omega
  · trivial

theorem bufOfList_holdsPartial (l : List Nat) :
    holdsPartial l l.length (bufOfList l) := by
  refine ⟨rfl, fun i => ?_⟩
  by_cases h : i < l.length
  · rw [if_pos h]; rfl
  · rw [if_neg h]
    exact List.getD_eq_default _ _ (by omega)

/-- C9: for every buffer whose header has a valid signature but a
declared payload length exceeding QEMU_MAX_DATA_LEN, _qemu_handle_packet
returns PACKET_INVALID with the buffer untouched and nothing dispatched.
The statement quantifies over all buffers agreeing only on the six
header bytes, so the result is independent of every byte at or past the
footer position: the oversized-length rejection strictly precedes the
footer read. -/
theorem c9_oversize_rejected_before_footer (reg : Nat → Bool) (b : RxBuf)
    (hsig : rdU16 b 0 = QEMU_HEADER_SIGNATURE)
    (hlen : QEMU_MAX_DATA_LEN < rdU16 b 4) :
    _qemu_handle_packet reg b = ⟨DecodeOutcome.invalid, b, [], true, false⟩ :=
  handle_inv_len reg b hsig hlen

/-- Witness for C9: a concrete header with signature 0xFEED and declared
length 0x0900 = 2304 > 2048 is rejected as Invalid. -/
theorem c9_oversize_witness :
    rdU16 ⟨staleStoreA, 2048⟩ 0 = QEMU_HEADER_SIGNATURE ∧
    QEMU_MAX_DATA_LEN < rdU16 ⟨staleStoreA, 2048⟩ 4 ∧
    _qemu_handle_packet regAll ⟨staleStoreA, 2048⟩ =
      ⟨DecodeOutcome.invalid, ⟨staleStoreA, 2048⟩, [], true, false⟩ :=
  ⟨by decide, by decide,
   c9_oversize_rejected_before_footer regAll ⟨staleStoreA, 2048⟩ (by decide) (by decide)⟩

/-- C10: for every buffer whose header passes the signature and
maximum-length checks but whose used-length is smaller than header size
plus declared payload length plus footer size, _qemu_handle_packet
returns PACKET_MORE_DATA_REQD and leaves the buffer completely unchanged
(same contents and used-length, nothing dispatched). -/
theorem c10_incomplete_frame_untouched (reg : Nat → Bool) (b : RxBuf)
    (hsig : rdU16 b 0 = QEMU_HEADER_SIGNATURE)
    (hlen : rdU16 b 4 ≤ QEMU_MAX_DATA_LEN)
    (hshort : b.used < rdU16 b 4 + headerSize + footerSize) :
    _qemu_handle_packet reg b = ⟨DecodeOutcome.moreDataReqd, b, [], true, false⟩ :=
  handle_more reg b hsig hlen hshort

/-- Witness for C10: a buffer holding a valid header declaring 2048
payload bytes but only 6 bytes used yields NeedMoreData unchanged. -/
theorem c10_incomplete_witness :
    rdU16 ⟨staleStoreB, 6⟩ 0 = QEMU_HEADER_SIGNATURE ∧
    rdU16 ⟨staleStoreB, 6⟩ 4 ≤ QEMU_MAX_DATA_LEN ∧
    (⟨staleStoreB, 6⟩ : RxBuf).used < rdU16 ⟨staleStoreB, 6⟩ 4 + headerSize + footerSize ∧
    _qemu_handle_packet regAll ⟨staleStoreB, 6⟩ =
      ⟨DecodeOutcome.moreDataReqd, ⟨staleStoreB, 6⟩, [], true, false⟩ :=
  ⟨by decide, by decide, by decide,
   c10_incomplete_frame_untouched regAll ⟨staleStoreB, 6⟩ (by decide) (by decide) (by decide)⟩

/-- C4: _qemu_read_header reads all six header bytes with no check that
used-length is at least six, so whenever fewer than six bytes have been
received the decode outcome (Invalid versus NeedMoreData) is determined
by backing-store bytes beyond used-length: for every used-length u < 6
there are two buffers that agree on every received byte (index < u) and
differ only in stale bytes, one decoding to PACKET_INVALID and the other
to PACKET_MORE_DATA_REQD. -/
theorem c4_outcome_determined_by_stale_bytes (u : Nat) (hu : u < 6) :
    ∃ b1 b2 : RxBuf, b1.used = u ∧ b2.used = u ∧
      (∀ i, i < u → b1.store i = b2.store i) ∧
      (_qemu_handle_packet regAll b1).outcome = DecodeOutcome.invalid ∧
      (_qemu_handle_packet regAll b2).outcome = DecodeOutcome.moreDataReqd := by
  refine ⟨⟨staleStoreA, u⟩, ⟨staleStoreB, u⟩, rfl, rfl, ?_, ?_, ?_⟩
  · intro i hi
    have h5 : i ≠ 5 := by omega
    simp only [staleStoreA, staleStoreB]
    split_ifs <;> omega
  · have hA := rdU16_eq ⟨staleStoreA, u⟩ 0 254 237 rfl rfl
    have hA4 := rdU16_eq ⟨staleStoreA, u⟩ 4 8 1 rfl rfl
    have h := handle_inv_len regAll ⟨staleStoreA, u⟩ (by rw [hA]; decide)
      (by rw [hA4]; decide)
    rw [h]
  · have hB := rdU16_eq ⟨staleStoreB, u⟩ 0 254 237 rfl rfl
    have hB4 := rdU16_eq ⟨staleStoreB, u⟩ 4 8 0 rfl rfl
    have h := handle_more regAll ⟨staleStoreB, u⟩ (by rw [hB]; decide)
      (by rw [hB4]; decide)
      (by rw [hB4]; show u < 8 * 256 + 0 + headerSize + footerSize
          unfold headerSize footerSize; omega)
    rw [h]

/-- Witness for C4: at used-length 3 the two stale-differing buffers
exist concretely. -/
theorem c4_stale_witness :
    ∃ b1 b2 : RxBuf, b1.used = 3 ∧ b2.used = 3 ∧
      (∀ i, i < 3 → b1.store i = b2.store i) ∧
      (_qemu_handle_packet regAll b1).outcome = DecodeOutcome.invalid ∧
      (_qemu_handle_packet regAll b2).outcome = DecodeOutcome.moreDataReqd :=
  c4_outcome_determined_by_stale_bytes 3 (by decide)

/-- C6 (amended): feeding the first 5 bytes of a valid frame yields
NeedMoreData with used-length unchanged at 5 PROVIDED the 16-bit length
assembled from the frame's fifth byte and the stale sixth backing-store
byte does not exceed QEMU_MAX_DATA_LEN (in particular whenever the
frame's payload length is below 0x0800); without that proviso the stale
byte can push the assembled length over the maximum and the decoder
reports Invalid instead (see the counterexample). -/
theorem c6_five_bytes_amended (reg : Nat → Bool) (proto : Nat) (p : List Nat)
    (b : RxBuf)
    (_hval : p.length ≤ QEMU_MAX_DATA_LEN)
    (hu : b.used = 5)
    (h5 : ∀ i, i < 5 → b.store i = (frameBytes proto p).getD i 0)
    (hstale : b.store 4 * 256 + b.store 5 ≤ QEMU_MAX_DATA_LEN) :
    _qemu_handle_packet reg b = ⟨DecodeOutcome.moreDataReqd, b, [], true, false⟩ := by
  have hs0 : b.store 0 = 254 := by rw [h5 0 (by omega)]; exact frame_getD0 proto p
  have hs1 : b.store 1 = 237 := by rw [h5 1 (by omega)]; exact frame_getD1 proto p
  have hsig : rdU16 b 0 = QEMU_HEADER_SIGNATURE := by
    rw [rdU16_eq b 0 254 237 hs0 hs1]; decide
  have hlv : rdU16 b 4 = b.store 4 * 256 + b.store 5 :=
    rdU16_eq b 4 (b.store 4) (b.store 5) rfl rfl
  apply handle_more reg b hsig (by omega)
  rw [hu]
  unfold headerSize footerSize
  omega

/-- Witness for C6: first 5 bytes of the valid frame carrying payload
[7, 7, 7], stale sixth byte 200: NeedMoreData, used-length still 5. -/
theorem c6_five_bytes_witness :
    ([7, 7, 7] : List Nat).length ≤ QEMU_MAX_DATA_LEN ∧
    (⟨c6witStore, 5⟩ : RxBuf).used = 5 ∧
    (∀ i, i < 5 → c6witStore i = (frameBytes 1 [7, 7, 7]).getD i 0) ∧
    c6witStore 4 * 256 + c6witStore 5 ≤ QEMU_MAX_DATA_LEN ∧
    _qemu_handle_packet regAll ⟨c6witStore, 5⟩ =
      ⟨DecodeOutcome.moreDataReqd, ⟨c6witStore, 5⟩, [], true, false⟩ :=
  ⟨by decide, rfl, by decide, by decide,
   c6_five_bytes_amended regAll 1 [7, 7, 7] ⟨c6witStore, 5⟩
     (by decide) rfl (by decide) (by decide)⟩

/-- Counterexample for C6 as stated: the buffer holds exactly the first
5 bytes of the valid frame frameBytes 1 (2048 zero bytes) with
used-length 5, yet the decoder returns Invalid (not NeedMoreData),
because the stale sixth byte 255 makes the length read 0x08FF > 2048. -/
theorem c6_five_bytes_counterexample :
    (List.replicate 2048 0 : List Nat).length ≤ QEMU_MAX_DATA_LEN ∧
    (∀ i, i < 5 → c6store i = (frameBytes 1 (List.replicate 2048 0)).getD i 0) ∧
    (⟨c6store, 5⟩ : RxBuf).used = 5 ∧
    (_qemu_handle_packet regAll ⟨c6store, 5⟩).outcome = DecodeOutcome.invalid := by
  refine ⟨by rw [List.length_replicate]; decide, ?_, rfl, ?_⟩
  · intro i hi
    interval_cases i
    · rw [frame_getD0]; rfl
    · rw [frame_getD1]; rfl
    · rw [frame_getD2]; rfl
    · rw [frame_getD3]; rfl
    · rw [frame_getD4, List.length_replicate]; rfl
  · have h := handle_inv_len regAll ⟨c6store, 5⟩
      (by rw [rdU16_eq ⟨c6store, 5⟩ 0 254 237 rfl rfl]; decide)
      (by rw [rdU16_eq ⟨c6store, 5⟩ 4 8 255 rfl rfl]; decide)
    rw [h]

/-- C8 (amended): for every fully validated frame that is the sole
content of the buffer (used-length = declared length + header size +
footer size), the consume step leaves exactly the payload bytes at the
front, used-length drops by 8 to the declared payload length, the
assert(used == header.len) condition holds, and the outcome is
Processed.  When additional bytes follow the frame in the buffer the
used-length after consumption exceeds the declared length and the assert
condition is violated (see the counterexample). -/
theorem c8_consume_amended (reg : Nat → Bool) (b : RxBuf)
    (hsig : rdU16 b 0 = QEMU_HEADER_SIGNATURE)
    (hlen : rdU16 b 4 ≤ QEMU_MAX_DATA_LEN)
    (hsole : b.used = rdU16 b 4 + headerSize + footerSize)
    (hftr : rdU16 b (rdU16 b 4 + headerSize) = QEMU_FOOTER_SIGNATURE) :
    (_qemu_handle_packet reg b).outcome = DecodeOutcome.processed ∧
    (_qemu_handle_packet reg b).buf.used = rdU16 b 4 ∧
    (_qemu_handle_packet reg b).assertOk = true ∧
    (∀ i, i < rdU16 b 4 →
      (_qemu_handle_packet reg b).buf.store i = b.store (i + headerSize)) := by
  have h3 : rdU16 b 4 + headerSize + footerSize ≤ b.used := by omega
  rw [handle_success reg b hsig hlen h3 hftr]
  have hu : b.used - (footerSize + headerSize) = rdU16 b 4 := by
    rw [hsole]; unfold headerSize footerSize; omega
  refine ⟨?_, ?_, ?_, ?_⟩
  · show (if rdU16 b 4 < b.used - (footerSize + headerSize) then
      DecodeOutcome.bufferHasData else DecodeOutcome.processed) = DecodeOutcome.processed
    rw [hu, if_neg (Nat.lt_irrefl _)]
  · exact hu
  · show decide (b.used - (footerSize + headerSize) = rdU16 b 4) = true
    simp [hu]
  · intro i hi
    show (if i < rdU16 b 4 then b.store (i + headerSize) else b.store i) =
      b.store (i + headerSize)
    rw [if_pos hi]

/-- Witness for C8: a single zero-payload frame alone in the buffer is
consumed with used-length 8 dropping to 0 and the assert holding. -/
theorem c8_consume_witness :
    rdU16 (bufOfList (frameBytes 1 [])) 0 = QEMU_HEADER_SIGNATURE ∧
    rdU16 (bufOfList (frameBytes 1 [])) 4 ≤ QEMU_MAX_DATA_LEN ∧
    (bufOfList (frameBytes 1 [])).used =
      rdU16 (bufOfList (frameBytes 1 [])) 4 + headerSize + footerSize ∧
    rdU16 (bufOfList (frameBytes 1 []))
      (rdU16 (bufOfList (frameBytes 1 [])) 4 + headerSize) = QEMU_FOOTER_SIGNATURE ∧
    ((_qemu_handle_packet regAll (bufOfList (frameBytes 1 []))).outcome =
        DecodeOutcome.processed ∧
      (_qemu_handle_packet regAll (bufOfList (frameBytes 1 []))).buf.used =
        rdU16 (bufOfList (frameBytes 1 [])) 4 ∧
      (_qemu_handle_packet regAll (bufOfList (frameBytes 1 []))).assertOk = true ∧
      (∀ i, i < rdU16 (bufOfList (frameBytes 1 [])) 4 →
        (_qemu_handle_packet regAll (bufOfList (frameBytes 1 []))).buf.store i =
          (bufOfList (frameBytes 1 [])).store (i + headerSize))) :=
  ⟨by decide, by decide, by decide, by decide,
   c8_consume_amended regAll (bufOfList (frameBytes 1 []))
     (by decide) (by decide) (by decide) (by decide)⟩

/-- Counterexample for C8 as stated: with two zero-payload frames in the
buffer, the decode of the first frame succeeds and dispatches, but after
the compaction used-length is 8, not the declared payload length 0, so
the assert(used == header.len) condition is violated on a
successful-decode path. -/
theorem c8_consume_counterexample :
    rdU16 (bufOfList (frameBytes 1 [] ++ frameBytes 1 [])) 4 = 0 ∧
    (_qemu_handle_packet regAll (bufOfList (frameBytes 1 [] ++ frameBytes 1 []))).evs =
      [(1, [])] ∧
    (_qemu_handle_packet regAll (bufOfList (frameBytes 1 [] ++ frameBytes 1 []))).buf.used = 8 ∧
    (_qemu_handle_packet regAll
      (bufOfList (frameBytes 1 [] ++ frameBytes 1 []))).assertOk = false := by
  decide

/-- C5 (amended): when the append of freshly read bytes fails, the
buffer is reset, nothing is dispatched in that iteration, and the inner
loop exits; the decoder is nevertheless still invoked once on the reset
buffer (the source calls _qemu_handle_packet unconditionally after the
failed append), though on an empty buffer it can never dispatch. -/
theorem c5_append_fail_amended (reg : Nat → Bool) (b : RxBuf) (c : List Nat)
    (hc : c.length ≠ 0)
    (hover : RX_BUFFER_SIZE < b.used + c.length) :
    (_qemu_iter reg b c).done = true ∧
    (_qemu_iter reg b c).evs = [] ∧
    (_qemu_iter reg b c).buf.used = 0 ∧
    (_qemu_iter reg b c).decodes = 1 := by
  have happ : protocol_rx_buffer_append b c = none := by
    unfold protocol_rx_buffer_append
    rw [if_pos hover]
  rcases handle_used_zero reg (protocol_rx_buffer_reset b) rfl with h | h
  · unfold _qemu_iter
    simp only [hc, ne_eq, not_false_eq_true, if_true, ite_true, happ, h]
    simp [protocol_rx_buffer_reset]
  · unfold _qemu_iter
    simp only [hc, ne_eq, not_false_eq_true, if_true, ite_true, happ, h]
    simp [protocol_rx_buffer_reset]

/-- Witness for C5 (amended): appending one byte to a full buffer. -/
theorem c5_append_fail_witness :
    (([0x55] : List Nat).length ≠ 0) ∧
    RX_BUFFER_SIZE < fullRxBuf.used + ([0x55] : List Nat).length ∧
    ((_qemu_iter regAll fullRxBuf [0x55]).done = true ∧
     (_qemu_iter regAll fullRxBuf [0x55]).evs = [] ∧
     (_qemu_iter regAll fullRxBuf [0x55]).buf.used = 0 ∧
     (_qemu_iter regAll fullRxBuf [0x55]).decodes = 1) :=
  ⟨by decide, by decide,
   c5_append_fail_amended regAll fullRxBuf [0x55] (by decide) (by decide)⟩

/-- Counterexample for C5 as stated: on a full buffer plus one incoming
byte the append fails, yet the iteration still performs a frame decode
(the decode count is 1, not 0). -/
theorem c5_append_fail_counterexample :
    protocol_rx_buffer_append fullRxBuf [0x55] = none ∧
    ¬ (_qemu_iter regAll fullRxBuf [0x55]).decodes = 0 := by
  constructor
  · rfl
  · decide

/-- C1 (amended): for every endpoint below 2^16 and every payload whose
length plus the 4 wrapper bytes does not exceed QEMU_MAX_DATA_LEN, with
the SPP protocol registered in the dispatch table, encoding via
qemu_send_data and decoding the emitted bytes via _qemu_handle_packet
reports Processed and dispatches exactly one packet on the SPP protocol
whose endpoint-tagged content resolves to endpoint E and payload P.
Without the length bound the decoder rejects the frame as oversized
(see the counterexample). -/
theorem c1_roundtrip_amended (reg : Nat → Bool) (endpoint : Nat) (p : List Nat)
    (he : endpoint < 65536)
    (hp : p.length + 4 ≤ QEMU_MAX_DATA_LEN)
    (hreg : reg QemuProtocol_SPP = true) :
    (_qemu_handle_packet reg (bufOfList (qemu_send_data endpoint p))).outcome =
      DecodeOutcome.processed ∧
    (_qemu_handle_packet reg (bufOfList (qemu_send_data endpoint p))).evs =
      [(QemuProtocol_SPP, sppWrap endpoint p)] ∧
    sppUnwrap (sppWrap endpoint p) = (endpoint, p) := by
  have hp2048 : p.length + 4 ≤ 2048 := hp
  have hsend := send_eq_frame endpoint p (by omega)
  have hwlen : (sppWrap endpoint p).length = p.length + 4 := by simp [sppWrap]
  have hbl := bufOfList_holdsPartial (qemu_send_data endpoint p)
  rw [hsend] at hbl
  have hfull := decode_full_frame reg QemuProtocol_SPP (sppWrap endpoint p)
      (bufOfList (frameBytes QemuProtocol_SPP (sppWrap endpoint p)))
      (by rw [hwlen]; exact hp) (by decide) hreg hbl
  rw [hsend]
  refine ⟨?_, ?_, sppUnwrap_wrap endpoint p he⟩
  · rw [hfull]
  · rw [hfull]

/-- Witness for C1 (amended): payload "ping" to endpoint 7 round-trips,
matching the worked example in the specification. -/
theorem c1_roundtrip_witness :
    (7 : Nat) < 65536 ∧
    ([0x70, 0x69, 0x6E, 0x67] : List Nat).length + 4 ≤ QEMU_MAX_DATA_LEN ∧
    regAll QemuProtocol_SPP = true ∧
    ((_qemu_handle_packet regAll
        (bufOfList (qemu_send_data 7 [0x70, 0x69, 0x6E, 0x67]))).outcome =
        DecodeOutcome.processed ∧
      (_qemu_handle_packet regAll
        (bufOfList (qemu_send_data 7 [0x70, 0x69, 0x6E, 0x67]))).evs =
        [(QemuProtocol_SPP, sppWrap 7 [0x70, 0x69, 0x6E, 0x67])] ∧
      sppUnwrap (sppWrap 7 [0x70, 0x69, 0x6E, 0x67]) = (7, [0x70, 0x69, 0x6E, 0x67])) :=
  ⟨by decide, by decide, rfl,
   c1_roundtrip_amended regAll 7 [0x70, 0x69, 0x6E, 0x67] (by decide) (by decide) rfl⟩

/-- Counterexample for C1 as stated: a payload of 2045 zero bytes (so
the header length field reads 2049 > QEMU_MAX_DATA_LEN) sent to endpoint
7 is rejected as Invalid by the receive path and nothing is dispatched,
so the round trip fails for this payload. -/
theorem c1_roundtrip_counterexample :
    (_qemu_handle_packet regAll
      (bufOfList (qemu_send_data 7 (List.replicate 2045 0)))).outcome =
      DecodeOutcome.invalid ∧
    (_qemu_handle_packet regAll
      (bufOfList (qemu_send_data 7 (List.replicate 2045 0)))).evs = [] := by
  have hst : ∀ i : Nat, (bufOfList (qemu_send_data 7 (List.replicate 2045 0))).store i =
      (qemu_send_data 7 (List.replicate 2045 0)).getD i 0 := fun _ => rfl
  have h0 : (bufOfList (qemu_send_data 7 (List.replicate 2045 0))).store 0 = 254 := by
    rw [hst]
    simp only [qemu_send_data, List.getD_cons_zero]
    decide
  have h1 : (bufOfList (qemu_send_data 7 (List.replicate 2045 0))).store 1 = 237 := by
    rw [hst]
    simp only [qemu_send_data, List.getD_cons_succ, List.getD_cons_zero]
    decide
  have h4 : (bufOfList (qemu_send_data 7 (List.replicate 2045 0))).store 4 = 8 := by
    rw [hst]
    simp only [qemu_send_data, List.getD_cons_succ, List.getD_cons_zero]
    rw [List.length_replicate]
  have h5 : (bufOfList (qemu_send_data 7 (List.replicate 2045 0))).store 5 = 1 := by
    rw [hst]
    simp only [qemu_send_data, List.getD_cons_succ, List.getD_cons_zero]
    rw [List.length_replicate]
  have h := handle_inv_len regAll (bufOfList (qemu_send_data 7 (List.replicate 2045 0)))
    (by rw [rdU16_eq _ 0 254 237 h0 h1]; decide)
    (by rw [rdU16_eq _ 4 8 1 h4 h5]; decide)
  rw [h]
  exact ⟨rfl, rfl⟩

/-- C3 (amended): chunking transparency holds for a stream carrying a
single valid frame fed into an initially empty buffer, provided every
chunk is nonempty and the first chunk carries at least the 2 signature
bytes: the dispatched payload sequence equals that of feeding the whole
frame as one chunk.  Splitting inside the signature breaks transparency
(see the counterexample), and a stream whose single read holds two
frames already fails against its own one-chunk baseline (see C7). -/
theorem c3_chunking_amended (reg : Nat → Bool) (proto : Nat) (p : List Nat)
    (cs : List (List Nat))
    (hp : p.length ≤ QEMU_MAX_DATA_LEN)
    (hproto : proto < 65536)
    (hreg : reg proto = true)
    (hcap : p.length + 8 ≤ RX_BUFFER_SIZE)
    (hjoin : cs.flatten = frameBytes proto p)
    (hne : ∀ c ∈ cs, c ≠ [])
    (hfirst : 2 ≤ (cs.headD []).length) :
    (processStream reg emptyRxBuf cs).evs =
      (processStream reg emptyRxBuf [frameBytes proto p]).evs := by
  have hcap2 : (frameBytes proto p).length ≤ RX_BUFFER_SIZE := by
    rw [frame_length]; exact hcap
  have h1 := feed_single_frame reg proto p cs hp hproto hreg hcap2 hjoin hne hfirst
  have h2 := feed_single_frame reg proto p [frameBytes proto p] hp hproto hreg hcap2
    (by simp)
    (by
      intro c hc
      rw [List.mem_singleton] at hc
      subst hc
      intro hnil
      have hl := congrArg List.length hnil
      rw [frame_length] at hl
      simp at hl)
    (by
      have : (List.headD [frameBytes proto p] []).length = (frameBytes proto p).length := by
        simp
      rw [this, frame_length]
      omega)
  rw [h1.1, h2.1]

/-- Witness for C3 (amended): the 9-byte frame for payload [0xCC] split
as a 2-byte chunk then a 7-byte chunk dispatches the same sequence as
the whole frame in one chunk. -/
theorem c3_chunking_witness :
    (([[0xFE, 0xED], [0, 1, 0, 1, 0xCC, 0xBE, 0xEF]] : List (List Nat)).flatten =
      frameBytes 1 [0xCC]) ∧
    (processStream regAll emptyRxBuf [[0xFE, 0xED], [0, 1, 0, 1, 0xCC, 0xBE, 0xEF]]).evs =
      (processStream regAll emptyRxBuf [frameBytes 1 [0xCC]]).evs :=
  ⟨by decide,
   c3_chunking_amended regAll 1 [0xCC] [[0xFE, 0xED], [0, 1, 0, 1, 0xCC, 0xBE, 0xEF]]
     (by decide) (by decide) rfl (by decide) (by decide) (by decide) (by decide)⟩

/-- Counterexample for C3 as stated: the same nine frame bytes split
with the first chunk holding only one signature byte dispatch nothing
(the stale-byte signature check fails and the buffer is reset), while
the single-chunk feed dispatches the payload - the two dispatched
sequences differ. -/
theorem c3_chunking_counterexample :
    (([[0xFE], [0xED, 0, 1, 0, 1, 0xCC, 0xBE, 0xEF]] : List (List Nat)).flatten =
      ([[0xFE, 0xED, 0, 1, 0, 1, 0xCC, 0xBE, 0xEF]] : List (List Nat)).flatten) ∧
    (processStream regAll emptyRxBuf [[0xFE], [0xED, 0, 1, 0, 1, 0xCC, 0xBE, 0xEF]]).evs ≠
      (processStream regAll emptyRxBuf [[0xFE, 0xED, 0, 1, 0, 1, 0xCC, 0xBE, 0xEF]]).evs := by
  decide

/-- C2: the decoder looks up the handler for a complete valid frame with
an unregistered protocol identifier, logs, still consumes the frame
(used-length drops to the payload length), dispatches nothing - and then
invokes the NULL handler pointer anyway (qemu.c line 235 calls
handler(p) without re-checking the NULL it just logged), which in C is a
crash / undefined behavior rather than a normal completion.  The
nullCall field records that invalid call on this concrete frame. -/
theorem c2_null_handler_invoked :
    (_qemu_handle_packet regSppOnly (bufOfList (frameBytes 66 [0x11]))).nullCall = true ∧
    (_qemu_handle_packet regSppOnly (bufOfList (frameBytes 66 [0x11]))).evs = [] ∧
    (_qemu_handle_packet regSppOnly (bufOfList (frameBytes 66 [0x11]))).buf.used = 1 ∧
    (_qemu_handle_packet regSppOnly (bufOfList (frameBytes 66 [0x11]))).outcome =
      DecodeOutcome.processed := by
  decide

/-- C7: a single read event holding two complete valid frames (payloads
[0xAA] and [0xBB]) makes the first decode return BufferHasMoreData and
the worker loop re-invoke the decoder (two decode invocations), but only
the first payload is ever dispatched: the consume step leaves the first
payload at the buffer front, so the re-invocation sees garbage, reports
Invalid and resets, losing the second frame; the assert(used ==
header.len) condition is also violated. -/
theorem c7_two_frames_single_dispatch :
    (processChunk regAll emptyRxBuf twoFrameChunk).evs = [(1, [0xAA])] ∧
    (processChunk regAll emptyRxBuf twoFrameChunk).assertOk = false ∧
    (processChunk regAll emptyRxBuf twoFrameChunk).decodes = 2 := by
  decide
